import Mathlib

/-!
# Verification of the AGP dashboard's data-processing core

A shallow embedding of the data-processing functions of
`src/streamlit_app.py` (an ambulatory-glucose-profile report generator):
`load_data`, `compute_agp_summary`, `compute_daily_profiles` and
`compute_agp`, together with theorems settling the specification's claims
about them.

Modelling conventions:
* A pandas `Timestamp` is modelled by its date ordinal plus the
  hour/minute/second fields that the code reads (`dt.date`, `dt.hour`,
  `dt.minute`); glucose values are exact rationals `ℚ` (the code performs
  only field arithmetic on them, except for the standard deviation, which
  is modelled over `ℝ`).
* A pandas float result that can be `NaN` (mean of an empty column,
  sample standard deviation of fewer than two values) is modelled as an
  `Option`: `none` stands for `NaN`, `some q` for the finite value `q`.
* A `DataFrame` is a list of rows plus the two derived columns that the
  aggregation functions assign in place (`data['Date'] = ...`,
  `data['Time of Day'] = ...`); each aggregation function returns the
  post-state of its argument frame next to its result, so that in-place
  column assignment is visible as a change of frame.
* `pandas.groupby(sort=True)` is modelled by listing the distinct keys in
  ascending order and pairing each with the rows that bear it.
-/

/-- A datetime as the code reads it: `dt.date` is modelled as an integer
day ordinal (dates compare chronologically), and the time-of-day fields
`dt.hour`, `dt.minute`, `dt.second`. -/
structure Timestamp where
  date : ℤ
  hour : ℕ
  minute : ℕ
  second : ℕ
  deriving DecidableEq, Repr

/-- One row of the loaded frame: a timestamp and a glucose value (mg/dL). -/
structure Reading where
  ts : Timestamp
  glucose : ℚ
  deriving DecidableEq, Repr

/-- The in-memory frame the aggregation functions operate on.  `rows` holds
the `Timestamp`/`Glucose` columns; `dateCol` and `todCol` are the derived
columns that `compute_daily_profiles` and `compute_agp` assign in place
(absent, i.e. `none`, until the corresponding function has run). -/
structure Frame where
  rows : List Reading
  dateCol : Option (List ℤ)
  todCol : Option (List ℚ)
  deriving DecidableEq, Repr

/-- The glucose column of a frame, `data['Glucose']`. -/
def Frame.glucose (f : Frame) : List ℚ :=
  f.rows.map Reading.glucose

/-! ## Ingestion (`load_data`) -/

/-- A cell of the uploaded sheet, abstracted to exactly what
`pd.to_datetime` needs: either a value parseable as a datetime (carrying
the datetime it parses to), a numeric cell, or a cell parseable as
neither. -/
inductive Cell where
  | dt (t : Timestamp)
  | num (q : ℚ)
  | bad
  deriving DecidableEq, Repr

/-- `pd.to_datetime` on one cell: succeeds exactly on datetime cells. -/
def parseCell : Cell → Option Timestamp
  | Cell.dt t => some t
  | _ => none

/-- `pd.to_datetime` over a whole column: all cells must parse
(whole-column failure otherwise). -/
def parseColumn : List Cell → Option (List Timestamp)
  | [] => some []
  | c :: cs => do
      let t ← parseCell c
      let ts ← parseColumn cs
      pure (t :: ts)

/-- The uploaded sheet: named columns of raw cells. -/
def RawTable : Type := List (String × List Cell)

/-- Column lookup, `df[name]`: the first column with that name. -/
def RawTable.col (t : RawTable) (name : String) : Option (List Cell) :=
  (List.lookup name t : Option (List Cell))

/-- The errors `load_data` can raise.  `keyError` models the `KeyError`
pandas raises for `df['Χρονική σήμανση συσκευής']` when that column is
absent (the spec's `SchemaError`); `parseError` models the exception
`pd.to_datetime` raises on an unparseable timestamp value (the spec's
`ParseError`). -/
inductive LoadError where
  | keyError
  | parseError
  deriving DecidableEq, Repr

/-- The fixed source-column names of `load_data`. -/
def timestampColName : String := "Χρονική σήμανση συσκευής"

/-- The fixed glucose source-column name of `load_data`. -/
def glucoseColName : String := "Ιστορική γλυκόζη mg/dL"

/-- The frame `load_data` returns: the parsed timestamp column, and the
glucose column *if the sheet had one* — `df.rename` silently ignores a
missing source column, so no error is raised when the glucose column is
absent; the returned frame simply has no `Glucose` column. -/
structure LoadedFrame where
  timestamps : List Timestamp
  glucose : Option (List Cell)
  deriving DecidableEq, Repr

/-- `load_data`: read the sheet, parse the timestamp column in place
(`KeyError` if the column is missing, parse failure if any cell is not a
datetime), then rename the two columns.  The rename ignores missing
columns, so only the timestamp column's absence is an error. -/
def load_data (t : RawTable) : Except LoadError LoadedFrame :=
  match t.col timestampColName with
  | none => Except.error LoadError.keyError
  | some c =>
      match parseColumn c with
      | none => Except.error LoadError.parseError
      | some ts => Except.ok ⟨ts, t.col glucoseColName⟩

/-! ## Summary (`compute_agp_summary`) -/

/-- `Series.mean()`: `NaN` (here `none`) on an empty column, the
arithmetic mean otherwise. -/
def meanOpt (g : List ℚ) : Option ℚ :=
  if g.length = 0 then none else some (g.sum / g.length)

/-- `data['Glucose'].between(a, b).mean() * 100`: the percentage of values
`v` with `a ≤ v ≤ b` (pandas `between` is inclusive on both ends);
`NaN` (`none`) on an empty column. -/
def pctBetween (a b : ℚ) (g : List ℚ) : Option ℚ :=
  if g.length = 0 then none
  else some ((g.countP fun v => decide (a ≤ v) && decide (v ≤ b) : ℚ) / g.length * 100)

/-- `data['Glucose'].between(a, float('inf')).mean() * 100`: the upper
bound `+∞` makes the upper test vacuous, so this counts `a ≤ v`. -/
def pctGe (a : ℚ) (g : List ℚ) : Option ℚ :=
  if g.length = 0 then none
  else some ((g.countP fun v => decide (a ≤ v) : ℚ) / g.length * 100)

/-- The summary dict built by `compute_agp_summary` (its `Coefficient of
Variation (%CV)` entry is modelled separately by `cvPct`, since it alone
involves a real square root). -/
structure AGPSummary where
  totalReadings : ℕ
  timeInTargetPct : Option ℚ
  timeBelowPct : Option ℚ
  timeVeryLowPct : Option ℚ
  timeAbovePct : Option ℚ
  timeVeryHighPct : Option ℚ
  meanGlucose : Option ℚ
  deriving DecidableEq, Repr

/-- `compute_agp_summary` (without the CV entry, see `cvPct`): counts the
readings in `(70, 180)`, `(54, 69)`, `(0, 53)`, `(181, 250)`,
`(251, inf)` — each `between` inclusive on both ends — and takes the mean.
The function only reads the frame, so the returned post-state frame is the
argument unchanged. -/
def compute_agp_summary (f : Frame) : Frame × AGPSummary :=
  (f,
    { totalReadings := f.rows.length
      timeInTargetPct := pctBetween 70 180 f.glucose
      timeBelowPct := pctBetween 54 69 f.glucose
      timeVeryLowPct := pctBetween 0 53 f.glucose
      timeAbovePct := pctBetween 181 250 f.glucose
      timeVeryHighPct := pctGe 251 f.glucose
      meanGlucose := meanOpt f.glucose })

/-- The mean as a total function (the value pandas computes on a nonempty
column; `0/0 = 0` junk on an empty one). -/
def meanQ (g : List ℚ) : ℚ := g.sum / g.length

/-- `Series.std()` squared: the sample variance with `ddof = 1`,
`Σ (v − mean)² / (n − 1)`. -/
def sampleVar (g : List ℚ) : ℚ :=
  (g.map fun v => (v - meanQ g) ^ 2).sum / ((g.length : ℚ) - 1)

/-- The summary's `Coefficient of Variation (%CV)` entry,
`(data['Glucose'].std() / data['Glucose'].mean()) * 100`: pandas `std`
uses `ddof = 1`, so on fewer than two readings it is `NaN` and the whole
CV is `NaN` (`none`); otherwise `std/mean × 100` as a real number. -/
noncomputable def cvPct (g : List ℚ) : Option ℝ :=
  if 2 ≤ g.length then
    some (Real.sqrt ((sampleVar g : ℚ) : ℝ) / ((meanQ g : ℚ) : ℝ) * 100)
  else none

/-! ## Grouping (`DataFrame.groupby`) -/

/-- The keys of `xs.groupby(key)` with pandas' default `sort=True`: the
distinct key values in ascending order. -/
def sortedKeys {α K : Type} [LinearOrder K] (key : α → K) (xs : List α) : List K :=
  ((xs.map key).dedup).insertionSort (· ≤ ·)

/-- `xs.groupby(key)`: each distinct key, in ascending order, paired with
the elements bearing it (in their original order). -/
def groupby {α K : Type} [LinearOrder K] [DecidableEq α] (key : α → K) (xs : List α) :
    List (K × List α) :=
  (sortedKeys key xs).map fun k => (k, xs.filter fun x => key x = k)

/-! ## Daily profiles (`compute_daily_profiles`) -/

/-- The date component of a reading's timestamp, `data['Timestamp'].dt.date`. -/
def dateOf (r : Reading) : ℤ := r.ts.date

/-- Minimum of a list of rationals (pandas `min` aggregation; groups are
never empty, the `0` default is never reached). -/
def listMin : List ℚ → ℚ
  | [] => 0
  | [v] => v
  | v :: (w :: t) => min v (listMin (w :: t))

/-- Maximum of a list of rationals (pandas `max` aggregation). -/
def listMax : List ℚ → ℚ
  | [] => 0
  | [v] => v
  | v :: (w :: t) => max v (listMax (w :: t))

/-- One row of the daily-profiles table: `{Date, Min, Max, Mean}`. -/
structure DailyRow where
  date : ℤ
  min : ℚ
  max : ℚ
  mean : ℚ
  deriving DecidableEq, Repr

/-- `compute_daily_profiles`: assigns `data['Date'] = dt.date` in place
(the post-state frame carries the new column), then groups by `Date` and
aggregates the glucose column with `Min='min', Max='max', Mean='mean'`;
`reset_index` makes that one row per distinct date, in the ascending date
order `groupby` produced. -/
def compute_daily_profiles (f : Frame) : Frame × List DailyRow :=
  ({ f with dateCol := some (f.rows.map dateOf) },
    (groupby dateOf f.rows).map fun g =>
      { date := g.1
        min := listMin (g.2.map Reading.glucose)
        max := listMax (g.2.map Reading.glucose)
        mean := meanQ (g.2.map Reading.glucose) })

/-! ## Time-of-day percentile curve (`compute_agp`) -/

/-- The derived `Time of Day` column:
`data['Timestamp'].dt.hour + data['Timestamp'].dt.minute / 60`
(seconds are not read). -/
def tod (r : Reading) : ℚ := (r.ts.hour : ℚ) + (r.ts.minute : ℚ) / 60

/-- Linear interpolation into a (sorted) sample at a fractional position:
`s[⌊pos⌋] + fract(pos) · (s[⌊pos⌋+1] − s[⌊pos⌋])`, numpy's `linear`
interpolation between the bracketing order statistics.  Out-of-range
indices default to `0`; for `0 ≤ pos ≤ n−1` they are only touched with
coefficient `0`. -/
def interpSorted (s : List ℚ) (pos : ℚ) : ℚ :=
  s.getD (⌊pos⌋.toNat) 0 + Int.fract pos * (s.getD (⌊pos⌋.toNat + 1) 0 - s.getD (⌊pos⌋.toNat) 0)

/-- `np.percentile(x, p)` with the default `linear` interpolation: sort
the sample and interpolate at position `p/100 × (n−1)`. -/
def percentile (xs : List ℚ) (p : ℚ) : ℚ :=
  interpSorted (xs.insertionSort (· ≤ ·)) (p * ((xs.length : ℚ) - 1) / 100)

/-- pandas' `median` aggregation: the middle order statistic for an odd
sample size, the average of the two middle ones for an even size. -/
def medianList (xs : List ℚ) : ℚ :=
  let s := xs.insertionSort (· ≤ ·)
  if xs.length % 2 = 1 then s.getD (xs.length / 2) 0
  else (s.getD (xs.length / 2 - 1) 0 + s.getD (xs.length / 2) 0) / 2

/-- One row of the AGP curve table:
`{Time of Day, Median, Percentile5, Percentile25, Percentile75, Percentile95}`. -/
structure AGPRow where
  timeOfDay : ℚ
  median : ℚ
  p5 : ℚ
  p25 : ℚ
  p75 : ℚ
  p95 : ℚ
  deriving DecidableEq, Repr

/-- `compute_agp`: assigns `data['Time of Day'] = hour + minute/60` in
place, groups by it, and aggregates the glucose column with pandas
`median` and `np.percentile` at 5/25/75/95; `reset_index` yields one row
per distinct time of day, ascending. -/
def compute_agp (f : Frame) : Frame × List AGPRow :=
  ({ f with todCol := some (f.rows.map tod) },
    (groupby tod f.rows).map fun g =>
      { timeOfDay := g.1
        median := medianList (g.2.map Reading.glucose)
        p5 := percentile (g.2.map Reading.glucose) 5
        p25 := percentile (g.2.map Reading.glucose) 25
        p75 := percentile (g.2.map Reading.glucose) 75
        p95 := percentile (g.2.map Reading.glucose) 95 })

/-! ## Specification-side definitions

Definitions written from the specification's / claims' own words, to be
compared with the embedded code above. -/

/-- From the claims' words: a RangeBucket percentage for a *half-open*
interval `[a, b)` — the count of readings whose value `v` satisfies
`a ≤ v < b`, over the total, times 100 (undefined on an empty series). -/
def claimPctIco (a b : ℚ) (g : List ℚ) : Option ℚ :=
  if g.length = 0 then none
  else some ((g.countP fun v => decide (a ≤ v) && decide (v < b) : ℚ) / g.length * 100)

/-- From the claims' words: the `very_high [251,∞)` bucket percentage —
the count of readings with `251 ≤ v`, over the total, times 100. -/
def claimPctCi (a : ℚ) (g : List ℚ) : Option ℚ :=
  if g.length = 0 then none
  else some ((g.countP fun v => decide (a ≤ v) : ℚ) / g.length * 100)

/-- From the spec's words: the percentage of readings whose value is
`≥ 0` (the right-hand side of the percentage-sum property). -/
def pctNonneg (g : List ℚ) : Option ℚ :=
  if g.length = 0 then none
  else some ((g.countP fun v => decide (0 ≤ v) : ℚ) / g.length * 100)

/-- `NaN`-propagating addition of percentages: adding a `NaN` (`none`)
float yields `NaN`, mirroring IEEE addition under the `Option` model. -/
def addO : Option ℚ → Option ℚ → Option ℚ
  | some a, some b => some (a + b)
  | _, _ => none

/-- From the spec's words (§4.3): one row per distinct calendar date, in
ascending date order, holding min/max/mean of the glucose values of the
readings on that date. -/
def profilesSpec (f : Frame) : List DailyRow :=
  (sortedKeys dateOf f.rows).map fun d =>
    { date := d
      min := listMin ((f.rows.filter fun x => dateOf x = d).map Reading.glucose)
      max := listMax ((f.rows.filter fun x => dateOf x = d).map Reading.glucose)
      mean := meanQ ((f.rows.filter fun x => dateOf x = d).map Reading.glucose) }

/-- From the spec's words (§4.4): one row per distinct time-of-day
coordinate `hour + minute/60`, in ascending coordinate order, holding the
median (the 50th percentile) and the 5th/25th/75th/95th percentiles of
the glucose values of the readings sharing that exact coordinate, all
with linear-interpolation-between-order-statistics semantics. -/
def agpSpec (f : Frame) : List AGPRow :=
  (sortedKeys tod f.rows).map fun t =>
    { timeOfDay := t
      median := percentile ((f.rows.filter fun x => tod x = t).map Reading.glucose) 50
      p5 := percentile ((f.rows.filter fun x => tod x = t).map Reading.glucose) 5
      p25 := percentile ((f.rows.filter fun x => tod x = t).map Reading.glucose) 25
      p75 := percentile ((f.rows.filter fun x => tod x = t).map Reading.glucose) 75
      p95 := percentile ((f.rows.filter fun x => tod x = t).map Reading.glucose) 95 }

/-- Scaling a series: every glucose value multiplied by `k`, timestamps
unchanged. -/
def scaleFrame (k : ℚ) (f : Frame) : Frame :=
  { f with rows := f.rows.map fun x => ⟨x.ts, k * x.glucose⟩ }

/-! ## Helper lemmas -/

lemma scaleFrame_glucose (k : ℚ) (f : Frame) :
    (scaleFrame k f).glucose = f.glucose.map fun v => k * v := by
  simp [scaleFrame, Frame.glucose, List.map_map, Function.comp]

lemma sortedKeys_sorted {α K : Type} [LinearOrder K] (key : α → K) (xs : List α) :
    (sortedKeys key xs).Sorted (· ≤ ·) :=
  List.sorted_insertionSort _ _

lemma sortedKeys_nodup {α K : Type} [LinearOrder K] (key : α → K) (xs : List α) :
    (sortedKeys key xs).Nodup :=
  (List.perm_insertionSort _ _).nodup_iff.mpr (List.nodup_dedup _)

lemma sortedKeys_pairwise_lt {α K : Type} [LinearOrder K] (key : α → K) (xs : List α) :
    (sortedKeys key xs).Pairwise (· < ·) :=
  ((sortedKeys_sorted key xs).and (sortedKeys_nodup key xs)).imp
    fun h => lt_of_le_of_ne h.1 h.2

lemma getD_mono_of_sorted {s : List ℚ} (hs : s.Sorted (· ≤ ·)) {i j : ℕ}
    (hij : i ≤ j) (hj : j < s.length) : s.getD i 0 ≤ s.getD j 0 := by
  rcases eq_or_lt_of_le hij with h | h
  · subst h; exact le_refl _
  · have hi : i < s.length := lt_trans h hj
    rw [List.getD_eq_getElem s 0 hi, List.getD_eq_getElem s 0 hj]
    exact List.pairwise_iff_get.mp hs ⟨i, hi⟩ ⟨j, hj⟩ h

lemma medianList_eq_percentile_50 (xs : List ℚ) : medianList xs = percentile xs 50 := by
  unfold medianList percentile interpSorted
  have hlen : (xs.insertionSort (· ≤ ·)).length = xs.length :=
    (List.perm_insertionSort _ xs).length_eq
  set s := xs.insertionSort (· ≤ ·) with hs
  set n := xs.length with hn
  have hpos : 50 * ((n : ℚ) - 1) / 100 = ((n : ℚ) - 1) / 2 := by ring
  rw [hpos]
  rcases Nat.even_or_odd n with ⟨m, hm⟩ | ⟨m, hm⟩
  · rcases Nat.eq_zero_or_pos m with h0 | hm1
    · have hn0 : n = 0 := by omega
      have hsnil : s = [] := List.length_eq_zero.mp (by rw [hlen, hn0])
      rw [hn0, hsnil]
      simp
    · have hfloor : ⌊((n : ℚ) - 1) / 2⌋ = (m : ℤ) - 1 := by
        rw [Int.floor_eq_iff]
        constructor
        · rw [hm]; push_cast; linarith [hm1]
        · rw [hm]; push_cast; linarith [hm1]
      have hfract : Int.fract (((n : ℚ) - 1) / 2) = 1 / 2 := by
        rw [(Int.self_sub_floor (((n : ℚ) - 1) / 2)).symm, hfloor, hm]
        push_cast
        ring
      have htn : ((m : ℤ) - 1).toNat = m - 1 := by omega
      rw [hfloor, hfract, htn]
      have h2 : ¬ n % 2 = 1 := by omega
      rw [if_neg h2]
      have h3 : n / 2 = m := by omega
      have h4 : m - 1 + 1 = m := by omega
      rw [h3, h4]
      ring
  · have hposm : ((n : ℚ) - 1) / 2 = (m : ℚ) := by
      rw [hm]; push_cast; ring
    rw [hposm]
    have hfloor : ⌊(m : ℚ)⌋ = (m : ℤ) := Int.floor_natCast m
    have hfract : Int.fract ((m : ℚ)) = 0 := Int.fract_natCast m
    rw [hfloor, hfract]
    have h2 : n % 2 = 1 := by omega
    rw [if_pos h2]
    have h3 : n / 2 = m := by omega
    have h4 : ((m : ℤ)).toNat = m := by omega
    rw [h3, h4]
    ring

lemma interpSorted_mono {s : List ℚ} (hs : s.Sorted (· ≤ ·)) {u v : ℚ}
    (hu : 0 ≤ u) (huv : u ≤ v) (hv : v ≤ (s.length : ℚ) - 1) :
    interpSorted s u ≤ interpSorted s v := by
  rcases Nat.eq_zero_or_pos s.length with h0 | h1
  · exfalso
    rw [h0] at hv
    push_cast at hv
    linarith
  have hu0 : 0 ≤ ⌊u⌋ := Int.floor_nonneg.mpr hu
  have hv0 : 0 ≤ ⌊v⌋ := Int.floor_nonneg.mpr (le_trans hu huv)
  have hfl : ⌊u⌋ ≤ ⌊v⌋ := Int.floor_le_floor huv
  have hvn : ⌊v⌋ ≤ (s.length : ℤ) - 1 := by
    have h2 : ((⌊v⌋ : ℚ)) ≤ (s.length : ℚ) - 1 := le_trans (Int.floor_le v) hv
    exact_mod_cast h2
  have hfru : 0 ≤ Int.fract u := Int.fract_nonneg u
  have hfrv : 0 ≤ Int.fract v := Int.fract_nonneg v
  have hfru1 : Int.fract u < 1 := Int.fract_lt_one u
  have hivn : ⌊v⌋.toNat < s.length := by omega
  rcases eq_or_lt_of_le hfl with heq | hlt
  · -- same bracketing interval
    by_cases hiv1 : ⌊v⌋.toNat + 1 < s.length
    · unfold interpSorted
      rw [heq]
      have hd : s.getD (⌊v⌋.toNat) 0 ≤ s.getD (⌊v⌋.toNat + 1) 0 :=
        getD_mono_of_sorted hs (by omega) hiv1
      have hfr : Int.fract u ≤ Int.fract v := by
        rw [← Int.self_sub_floor u, ← Int.self_sub_floor v, heq]
        linarith
      exact add_le_add_left (mul_le_mul_of_nonneg_right hfr (sub_nonneg.mpr hd)) _
    · have hfv : ⌊v⌋ = (s.length : ℤ) - 1 := by omega
      have hflq : ((⌊u⌋ : ℚ)) = (s.length : ℚ) - 1 := by
        rw [heq, hfv]; push_cast; ring
      have hvu : v ≤ u := le_trans hv (by rw [← hflq]; exact Int.floor_le u)
      rw [le_antisymm huv hvu]
  · -- strictly separated bracketing intervals
    have hiuiv : ⌊u⌋.toNat < ⌊v⌋.toNat := by omega
    have hiu1n : ⌊u⌋.toNat + 1 < s.length := by omega
    unfold interpSorted
    have hd1 : s.getD (⌊u⌋.toNat) 0 ≤ s.getD (⌊u⌋.toNat + 1) 0 :=
      getD_mono_of_sorted hs (by omega) hiu1n
    have step1 : s.getD (⌊u⌋.toNat) 0
        + Int.fract u * (s.getD (⌊u⌋.toNat + 1) 0 - s.getD (⌊u⌋.toNat) 0)
        ≤ s.getD (⌊u⌋.toNat + 1) 0 := by nlinarith [sub_nonneg.mpr hd1]
    have step2 : s.getD (⌊u⌋.toNat + 1) 0 ≤ s.getD (⌊v⌋.toNat) 0 :=
      getD_mono_of_sorted hs (by omega) hivn
    have step3 : s.getD (⌊v⌋.toNat) 0 ≤ s.getD (⌊v⌋.toNat) 0
        + Int.fract v * (s.getD (⌊v⌋.toNat + 1) 0 - s.getD (⌊v⌋.toNat) 0) := by
      by_cases hiv1 : ⌊v⌋.toNat + 1 < s.length
      · have hd2 : s.getD (⌊v⌋.toNat) 0 ≤ s.getD (⌊v⌋.toNat + 1) 0 :=
          getD_mono_of_sorted hs (by omega) hiv1
        exact le_add_of_nonneg_right (mul_nonneg hfrv (sub_nonneg.mpr hd2))
      · have hfv : ⌊v⌋ = (s.length : ℤ) - 1 := by omega
        have hveq : v = ((⌊v⌋ : ℚ)) := by
          refine le_antisymm ?_ (Int.floor_le v)
          rw [hfv]; push_cast; linarith
        have : Int.fract v = 0 := by
          rw [← Int.self_sub_floor v, ← hveq]
          linarith [hveq]
        rw [this]
        ring_nf
        exact le_refl _
    linarith

lemma percentile_mono (xs : List ℚ) {p q : ℚ} (hp : 0 ≤ p) (hpq : p ≤ q)
    (hq : q ≤ 100) : percentile xs p ≤ percentile xs q := by
  rcases Nat.eq_zero_or_pos xs.length with h0 | h1
  · have hnil : xs = [] := List.length_eq_zero.mp h0
    subst hnil
    unfold percentile interpSorted
    simp
  · unfold percentile
    have hlen : (xs.insertionSort (· ≤ ·)).length = xs.length :=
      (List.perm_insertionSort _ xs).length_eq
    have hn1 : (1 : ℚ) ≤ (xs.length : ℚ) := by exact_mod_cast h1
    have hd : (0 : ℚ) ≤ (xs.length : ℚ) - 1 := by linarith
    apply interpSorted_mono (List.sorted_insertionSort _ xs)
    · apply div_nonneg (mul_nonneg hp hd) (by norm_num)
    · have hm := mul_le_mul_of_nonneg_right hpq hd
      linarith
    · rw [hlen]
      rw [div_le_iff₀ (by norm_num : (0:ℚ) < 100)]
      nlinarith

lemma meanQ_scale (k : ℚ) (g : List ℚ) :
    meanQ (g.map fun v => k * v) = k * meanQ g := by
  unfold meanQ
  have h : (g.map fun v => k * v).sum = k * g.sum := by
    simpa using List.sum_map_mul_left g id k
  rw [h, List.length_map]
  ring

lemma sampleVar_scale (k : ℚ) (g : List ℚ) :
    sampleVar (g.map fun v => k * v) = k ^ 2 * sampleVar g := by
  unfold sampleVar
  rw [List.length_map, meanQ_scale]
  have h : ((g.map fun v => k * v).map fun v => (v - k * meanQ g) ^ 2)
      = g.map fun v => k ^ 2 * (v - meanQ g) ^ 2 := by
    rw [List.map_map]
    apply List.map_congr_left
    intro x _
    simp only [Function.comp]
    ring
  rw [h]
  have h2 : (g.map fun v => k ^ 2 * (v - meanQ g) ^ 2).sum
      = k ^ 2 * (g.map fun v => (v - meanQ g) ^ 2).sum :=
    List.sum_map_mul_left g _ _
  rw [h2]
  ring

lemma int_val_le_iff {v : ℚ} (hv : ∃ m : ℤ, v = (m : ℚ)) (b : ℤ) :
    v ≤ (b : ℚ) ↔ v < (b : ℚ) + 1 := by
  obtain ⟨m, rfl⟩ := hv
  constructor
  · intro h
    have h1 : m ≤ b := by exact_mod_cast h
    have h2 : (m : ℚ) < ((b + 1 : ℤ) : ℚ) := by exact_mod_cast (by omega : m < b + 1)
    push_cast at h2
    linarith
  · intro h
    have h1 : (m : ℚ) < ((b + 1 : ℤ) : ℚ) := by push_cast; linarith
    have h2 : m < b + 1 := by exact_mod_cast h1
    have h3 : m ≤ b := by omega
    exact_mod_cast h3

lemma countP_bucket_partition (g : List ℚ) (hint : ∀ v ∈ g, ∃ m : ℤ, v = (m : ℚ)) :
    g.countP (fun v => decide (0 ≤ v) && decide (v ≤ 53))
      + g.countP (fun v => decide (54 ≤ v) && decide (v ≤ 69))
      + g.countP (fun v => decide (70 ≤ v) && decide (v ≤ 180))
      + g.countP (fun v => decide (181 ≤ v) && decide (v ≤ 250))
      + g.countP (fun v => decide (251 ≤ v))
      = g.countP fun v => decide (0 ≤ v) := by
  induction g with
  | nil => simp
  | cons x t ih =>
    have hx : ∃ m : ℤ, x = (m : ℚ) := hint x (List.mem_cons_self x t)
    have ht : ∀ v ∈ t, ∃ m : ℤ, v = (m : ℚ) := fun v hv => hint v (List.mem_cons_of_mem x hv)
    have ihh := ih ht
    obtain ⟨m, rfl⟩ := hx
    simp only [List.countP_cons, Bool.and_eq_true, decide_eq_true_eq]
    have h0 : ((0 : ℚ) ≤ (m : ℚ)) ↔ (0 ≤ m) := by exact_mod_cast Iff.rfl
    have h53 : ((m : ℚ) ≤ 53) ↔ (m ≤ 53) := by exact_mod_cast Iff.rfl
    have h54 : ((54 : ℚ) ≤ (m : ℚ)) ↔ (54 ≤ m) := by exact_mod_cast Iff.rfl
    have h69 : ((m : ℚ) ≤ 69) ↔ (m ≤ 69) := by exact_mod_cast Iff.rfl
    have h70 : ((70 : ℚ) ≤ (m : ℚ)) ↔ (70 ≤ m) := by exact_mod_cast Iff.rfl
    have h180 : ((m : ℚ) ≤ 180) ↔ (m ≤ 180) := by exact_mod_cast Iff.rfl
    have h181 : ((181 : ℚ) ≤ (m : ℚ)) ↔ (181 ≤ m) := by exact_mod_cast Iff.rfl
    have h250 : ((m : ℚ) ≤ 250) ↔ (m ≤ 250) := by exact_mod_cast Iff.rfl
    have h251 : ((251 : ℚ) ≤ (m : ℚ)) ↔ (251 ≤ m) := by exact_mod_cast Iff.rfl
    simp only [h0, h53, h54, h69, h70, h180, h181, h250, h251]
    have hind :
        (if 0 ≤ m ∧ m ≤ 53 then 1 else 0) + (if 54 ≤ m ∧ m ≤ 69 then 1 else 0)
          + (if 70 ≤ m ∧ m ≤ 180 then 1 else 0) + (if 181 ≤ m ∧ m ≤ 250 then 1 else 0)
          + (if 251 ≤ m then 1 else 0) = (if 0 ≤ m then 1 else 0 : ℕ) := by
      split_ifs <;> omega
    omega

/-! ## Claim theorems -/

/-- C10: computing the summary leaves the input frame completely unchanged
(no columns added, no values modified), while the daily-profile and AGP
computations assign their derived column (`Date`, `Time of Day`) to the
input frame in place — a genuine change whenever the column was not
already present. -/
theorem summary_pure_daily_agp_mutate (f : Frame) :
    (compute_agp_summary f).1 = f
    ∧ (compute_daily_profiles f).1 = { f with dateCol := some (f.rows.map dateOf) }
    ∧ (compute_agp f).1 = { f with todCol := some (f.rows.map tod) }
    ∧ (f.dateCol = none → (compute_daily_profiles f).1 ≠ f)
    ∧ (f.todCol = none → (compute_agp f).1 ≠ f) := by
  refine ⟨rfl, rfl, rfl, ?_, ?_⟩
  · intro h heq
    have h2 : some (f.rows.map dateOf) = f.dateCol := congrArg Frame.dateCol heq
    rw [h] at h2
    exact Option.noConfusion h2
  · intro h heq
    have h2 : some (f.rows.map tod) = f.todCol := congrArg Frame.todCol heq
    rw [h] at h2
    exact Option.noConfusion h2

/-- C1, counterexample: on a series with zero readings no aggregation
fails — there is no `EmptySeriesError` anywhere in the code.  The summary
returns normally with `Mean = NaN` (modelled as `none`), exactly what the
claim says never happens, and the daily-profile and AGP computations
return empty tables. -/
theorem empty_series_no_error :
    (compute_agp_summary ⟨[], none, none⟩).2.meanGlucose = none
    ∧ (compute_agp_summary ⟨[], none, none⟩).2.totalReadings = 0
    ∧ (compute_daily_profiles ⟨[], none, none⟩).2 = []
    ∧ (compute_agp ⟨[], none, none⟩).2 = [] := by
  refine ⟨rfl, rfl, rfl, rfl⟩

/-- C1, amended: on a series with zero readings every aggregation returns
normally (they are total; the code raises no `EmptySeriesError`): the
summary has `TotalReadings = 0` and `NaN` (`none`) for the mean, every
bucket percentage and the CV, and the daily-profile and AGP computations
return empty tables. -/
theorem empty_series_amended (f : Frame) (h : f.rows = []) :
    (compute_agp_summary f).2.totalReadings = 0
    ∧ (compute_agp_summary f).2.meanGlucose = none
    ∧ (compute_agp_summary f).2.timeInTargetPct = none
    ∧ (compute_agp_summary f).2.timeBelowPct = none
    ∧ (compute_agp_summary f).2.timeVeryLowPct = none
    ∧ (compute_agp_summary f).2.timeAbovePct = none
    ∧ (compute_agp_summary f).2.timeVeryHighPct = none
    ∧ cvPct f.glucose = none
    ∧ (compute_daily_profiles f).2 = []
    ∧ (compute_agp f).2 = [] := by
  have hg : f.glucose = [] := by simp [Frame.glucose, h]
  refine ⟨?_, ?_, ?_, ?_, ?_, ?_, ?_, ?_, ?_, ?_⟩ <;>
    simp [compute_agp_summary, meanOpt, pctBetween, pctGe, cvPct, hg, h,
      compute_daily_profiles, compute_agp, groupby, sortedKeys]

/-- C1 witness: the amended statement evaluated on the concrete empty
frame. -/
theorem empty_series_amended_witness :
    (compute_agp_summary ⟨[], none, none⟩).2.meanGlucose = none
    ∧ cvPct (Frame.glucose ⟨[], none, none⟩) = none :=
  ⟨(empty_series_amended ⟨[], none, none⟩ rfl).2.1,
    (empty_series_amended ⟨[], none, none⟩ rfl).2.2.2.2.2.2.2.1⟩

/-- C5, counterexample: a sheet whose timestamp column is present and
parseable but whose glucose column is absent loads *successfully* — the
`rename` silently ignores the missing source column, so no `SchemaError`
(or any error) is raised; the claim says ingestion must fail here. -/
theorem load_data_missing_glucose_ok :
    load_data [(timestampColName, [Cell.dt ⟨0, 8, 0, 0⟩])]
      = Except.ok ⟨[⟨0, 8, 0, 0⟩], none⟩ := by
  rfl

/-- C5, amended: ingestion fails (`KeyError`, the spec's `SchemaError`)
exactly when the *timestamp* column is absent — a missing glucose column
is not detected, the returned frame merely lacks it; it fails with
`ParseError` when the timestamp column is present but some value does not
parse as a datetime (whole-dataset failure); and when the timestamp
column is present and all its values parse, it returns a Series and
raises neither error. -/
theorem load_data_amended (t : RawTable) :
    (t.col timestampColName = none → load_data t = Except.error LoadError.keyError)
    ∧ (∀ c, t.col timestampColName = some c → parseColumn c = none →
        load_data t = Except.error LoadError.parseError)
    ∧ (∀ c ts, t.col timestampColName = some c → parseColumn c = some ts →
        load_data t = Except.ok ⟨ts, t.col glucoseColName⟩) := by
  refine ⟨?_, ?_, ?_⟩
  · intro h
    simp [load_data, h]
  · intro c h1 h2
    simp [load_data, h1, h2]
  · intro c ts h1 h2
    simp [load_data, h1, h2]

/-- C9: on a series with exactly one reading the summary computation
raises no error and is fully defined except for the CV: the sample
standard deviation (`ddof = 1`) of one value is `NaN`, so the CV is `NaN`
(`none`), while the mean and every bucket percentage are finite
(`isSome`). -/
theorem single_reading_summary (f : Frame) (h : f.rows.length = 1) :
    cvPct f.glucose = none
    ∧ (compute_agp_summary f).2.totalReadings = 1
    ∧ (compute_agp_summary f).2.meanGlucose.isSome = true
    ∧ (compute_agp_summary f).2.timeInTargetPct.isSome = true
    ∧ (compute_agp_summary f).2.timeBelowPct.isSome = true
    ∧ (compute_agp_summary f).2.timeVeryLowPct.isSome = true
    ∧ (compute_agp_summary f).2.timeAbovePct.isSome = true
    ∧ (compute_agp_summary f).2.timeVeryHighPct.isSome = true := by
  have hg : f.glucose.length = 1 := by simp [Frame.glucose, h]
  have hg0 : ¬ f.glucose.length = 0 := by omega
  refine ⟨?_, ?_, ?_, ?_, ?_, ?_, ?_, ?_⟩ <;>
    simp [cvPct, hg, h, compute_agp_summary, meanOpt, pctBetween, pctGe, hg0]

/-- C9 witness: the single-reading statement evaluated on a concrete
one-reading frame. -/
theorem single_reading_summary_witness :
    cvPct (Frame.glucose ⟨[⟨⟨0, 8, 0, 0⟩, 100⟩], none, none⟩) = none
    ∧ (compute_agp_summary ⟨[⟨⟨0, 8, 0, 0⟩, 100⟩], none, none⟩).2.meanGlucose.isSome = true :=
  ⟨(single_reading_summary ⟨[⟨⟨0, 8, 0, 0⟩, 100⟩], none, none⟩ rfl).1,
    (single_reading_summary ⟨[⟨⟨0, 8, 0, 0⟩, 100⟩], none, none⟩ rfl).2.2.1⟩

/-- C7: for a series with at least two readings and nonzero mean,
multiplying every glucose value by `k > 0` leaves the CV% unchanged: the
sample standard deviation scales by `k`, the mean scales by `k`, and the
quotient cancels. -/
theorem cv_scale_invariant (f : Frame) (k : ℚ) (h2 : 2 ≤ f.rows.length)
    (_hm : meanQ f.glucose ≠ 0) (hk : 0 < k) :
    cvPct (scaleFrame k f).glucose = cvPct f.glucose := by
  rw [scaleFrame_glucose]
  unfold cvPct
  have hgl : f.glucose.length = f.rows.length := by simp [Frame.glucose]
  have h2' : 2 ≤ f.glucose.length := by omega
  rw [if_pos (by rw [List.length_map]; exact h2'), if_pos h2']
  congr 1
  rw [sampleVar_scale, meanQ_scale]
  push_cast
  rw [Real.sqrt_mul (by positivity) _, Real.sqrt_sq (by positivity : (0:ℝ) ≤ (k:ℝ))]
  have hk0 : (k : ℝ) ≠ 0 := by exact_mod_cast hk.ne'
  rw [mul_div_mul_left _ _ hk0]

/-- C7 witness: CV% invariance at `k = 2` on a concrete two-reading
series. -/
theorem cv_scale_invariant_witness :
    cvPct (scaleFrame 2 ⟨[⟨⟨0, 8, 0, 0⟩, 100⟩, ⟨⟨0, 9, 0, 0⟩, 200⟩], none, none⟩).glucose
      = cvPct (Frame.glucose ⟨[⟨⟨0, 8, 0, 0⟩, 100⟩, ⟨⟨0, 9, 0, 0⟩, 200⟩], none, none⟩) :=
  cv_scale_invariant ⟨[⟨⟨0, 8, 0, 0⟩, 100⟩, ⟨⟨0, 9, 0, 0⟩, 200⟩], none, none⟩ 2
    (by decide) (by norm_num [meanQ, Frame.glucose]) (by norm_num)

/-- C2, counterexample: the code's buckets are *closed* intervals, not the
claimed half-open ones.  For the single reading `69.5` the claimed
interval `low = [54, 70)` contains the value (so the claim's formula gives
100%), but the code's `between(54, 69)` does not: the computed low
percentage is 0%. -/
theorem bucket_boundary_mismatch :
    (compute_agp_summary ⟨[⟨⟨0, 8, 0, 0⟩, 139/2⟩], none, none⟩).2.timeBelowPct = some 0
    ∧ claimPctIco 54 70 (Frame.glucose ⟨[⟨⟨0, 8, 0, 0⟩, 139/2⟩], none, none⟩) = some 100 := by
  constructor
  · norm_num [compute_agp_summary, pctBetween, Frame.glucose, List.countP_cons,
      Bool.and_eq_true, decide_eq_true_eq]
  · norm_num [claimPctIco, Frame.glucose, List.countP_cons,
      Bool.and_eq_true, decide_eq_true_eq]

/-- C2, amended: restricted to series whose glucose values are all
integers (as device readings in mg/dL are), the code's closed-interval
buckets `[0,53]`, `[54,69]`, `[70,180]`, `[181,250]`, `[251,∞)` coincide
with the claimed half-open ones `[0,54)`, `[54,70)`, `[70,181)`,
`[181,251)`, `[251,∞)`, and each bucket's percentage is the count of
readings in the bucket over the total, times 100. -/
theorem buckets_amended (f : Frame) (_hne : f.rows ≠ [])
    (hint : ∀ v ∈ f.glucose, ∃ m : ℤ, v = (m : ℚ)) :
    (compute_agp_summary f).2.timeVeryLowPct = claimPctIco 0 54 f.glucose
    ∧ (compute_agp_summary f).2.timeBelowPct = claimPctIco 54 70 f.glucose
    ∧ (compute_agp_summary f).2.timeInTargetPct = claimPctIco 70 181 f.glucose
    ∧ (compute_agp_summary f).2.timeAbovePct = claimPctIco 181 251 f.glucose
    ∧ (compute_agp_summary f).2.timeVeryHighPct = claimPctCi 251 f.glucose := by
  have key : ∀ a c c' : ℚ, (∀ x ∈ f.glucose, x ≤ c ↔ x < c') →
      pctBetween a c f.glucose = claimPctIco a c' f.glucose := by
    intro a c c' hcc
    unfold pctBetween claimPctIco
    have hc : f.glucose.countP (fun v => decide (a ≤ v) && decide (v ≤ c))
        = f.glucose.countP (fun v => decide (a ≤ v) && decide (v < c')) := by
      apply List.countP_congr
      intro x hx
      simp only [Bool.and_eq_true, decide_eq_true_eq]
      exact and_congr_right fun _ => hcc x hx
    rw [hc]
  refine ⟨?_, ?_, ?_, ?_, rfl⟩
  · apply key
    intro x hx
    have h := int_val_le_iff (hint x hx) 53
    norm_num at h
    exact h
  · apply key
    intro x hx
    have h := int_val_le_iff (hint x hx) 69
    norm_num at h
    exact h
  · apply key
    intro x hx
    have h := int_val_le_iff (hint x hx) 180
    norm_num at h
    exact h
  · apply key
    intro x hx
    have h := int_val_le_iff (hint x hx) 250
    norm_num at h
    exact h

/-- C2 witness: the amended bucket statement on a concrete integer-valued
series. -/
theorem buckets_amended_witness :
    (compute_agp_summary ⟨[⟨⟨0, 8, 0, 0⟩, 69⟩], none, none⟩).2.timeBelowPct
      = claimPctIco 54 70 (Frame.glucose ⟨[⟨⟨0, 8, 0, 0⟩, 69⟩], none, none⟩) :=
  (buckets_amended ⟨[⟨⟨0, 8, 0, 0⟩, 69⟩], none, none⟩ (by decide)
    (by
      intro v hv
      simp only [Frame.glucose, List.map_cons, List.map_nil, List.mem_singleton] at hv
      exact ⟨69, by rw [hv]; norm_num⟩)).2.1

/-- C3, counterexample: for the single non-integer reading `53.5` every
computed bucket percentage is 0% — the value falls in the gap between the
closed buckets `[0,53]` and `[54,69]` — so the five percentages sum to 0,
while the percentage of readings `≥ 0` is 100. -/
theorem bucket_sum_gap :
    addO (addO (addO (addO
      (compute_agp_summary ⟨[⟨⟨0, 8, 0, 0⟩, 107/2⟩], none, none⟩).2.timeVeryLowPct
      (compute_agp_summary ⟨[⟨⟨0, 8, 0, 0⟩, 107/2⟩], none, none⟩).2.timeBelowPct)
      (compute_agp_summary ⟨[⟨⟨0, 8, 0, 0⟩, 107/2⟩], none, none⟩).2.timeInTargetPct)
      (compute_agp_summary ⟨[⟨⟨0, 8, 0, 0⟩, 107/2⟩], none, none⟩).2.timeAbovePct)
      (compute_agp_summary ⟨[⟨⟨0, 8, 0, 0⟩, 107/2⟩], none, none⟩).2.timeVeryHighPct
      = some 0
    ∧ pctNonneg (Frame.glucose ⟨[⟨⟨0, 8, 0, 0⟩, 107/2⟩], none, none⟩) = some 100 := by
  constructor
  · norm_num [compute_agp_summary, pctBetween, pctGe, Frame.glucose, List.countP_cons,
      Bool.and_eq_true, decide_eq_true_eq, addO]
  · norm_num [pctNonneg, Frame.glucose, List.countP_cons, decide_eq_true_eq]

/-- C3, amended: restricted to series whose glucose values are all
integers, the five bucket percentages (added with `NaN`-propagating
float addition) sum exactly to the percentage of readings with value
`≥ 0`: the closed integer buckets partition `[0, ∞) ∩ ℤ`. -/
theorem bucket_sum_amended (f : Frame) (hne : f.rows ≠ [])
    (hint : ∀ v ∈ f.glucose, ∃ m : ℤ, v = (m : ℚ)) :
    addO (addO (addO (addO (compute_agp_summary f).2.timeVeryLowPct
      (compute_agp_summary f).2.timeBelowPct) (compute_agp_summary f).2.timeInTargetPct)
      (compute_agp_summary f).2.timeAbovePct) (compute_agp_summary f).2.timeVeryHighPct
      = pctNonneg f.glucose := by
  have hlen : ¬ f.glucose.length = 0 := by
    simp only [Frame.glucose, List.length_map]
    exact fun h => hne (List.length_eq_zero.mp h)
  simp only [compute_agp_summary, pctBetween, pctGe, pctNonneg, if_neg hlen, addO]
  congr 1
  have hpart := countP_bucket_partition f.glucose hint
  rw [← hpart]
  push_cast
  ring

/-- C3 witness: the amended percentage-sum statement on a concrete
integer-valued series with a negative reading (which no bucket counts). -/
theorem bucket_sum_amended_witness :
    addO (addO (addO (addO
      (compute_agp_summary ⟨[⟨⟨0, 8, 0, 0⟩, 100⟩, ⟨⟨0, 9, 0, 0⟩, -5⟩], none, none⟩).2.timeVeryLowPct
      (compute_agp_summary ⟨[⟨⟨0, 8, 0, 0⟩, 100⟩, ⟨⟨0, 9, 0, 0⟩, -5⟩], none, none⟩).2.timeBelowPct)
      (compute_agp_summary ⟨[⟨⟨0, 8, 0, 0⟩, 100⟩, ⟨⟨0, 9, 0, 0⟩, -5⟩], none, none⟩).2.timeInTargetPct)
      (compute_agp_summary ⟨[⟨⟨0, 8, 0, 0⟩, 100⟩, ⟨⟨0, 9, 0, 0⟩, -5⟩], none, none⟩).2.timeAbovePct)
      (compute_agp_summary ⟨[⟨⟨0, 8, 0, 0⟩, 100⟩, ⟨⟨0, 9, 0, 0⟩, -5⟩], none, none⟩).2.timeVeryHighPct
      = pctNonneg (Frame.glucose ⟨[⟨⟨0, 8, 0, 0⟩, 100⟩, ⟨⟨0, 9, 0, 0⟩, -5⟩], none, none⟩) :=
  bucket_sum_amended ⟨[⟨⟨0, 8, 0, 0⟩, 100⟩, ⟨⟨0, 9, 0, 0⟩, -5⟩], none, none⟩ (by decide)
    (by
      intro v hv
      simp only [Frame.glucose, List.map_cons, List.map_nil, List.mem_cons,
        List.mem_singleton, List.not_mem_nil, or_false] at hv
      rcases hv with h | h
      · exact ⟨100, by rw [h]; norm_num⟩
      · exact ⟨-5, by rw [h]; norm_num⟩)

/-- C6: the daily-profile computation groups readings by the date
component of their timestamps and returns exactly the table the spec
describes — one row per distinct date with the min/max/mean of that
date's glucose values — with the dates strictly ascending (so no
duplicate rows and no row for a date with zero readings). -/
theorem daily_profiles_correct (f : Frame) (_hne : f.rows ≠ []) :
    (compute_daily_profiles f).2 = profilesSpec f
    ∧ ((compute_daily_profiles f).2.map DailyRow.date).Pairwise (· < ·) := by
  have heq : (compute_daily_profiles f).2 = profilesSpec f := by
    simp only [compute_daily_profiles, profilesSpec, groupby, List.map_map]
    rfl
  refine ⟨heq, ?_⟩
  rw [heq]
  have hkeys : (profilesSpec f).map DailyRow.date = sortedKeys dateOf f.rows := by
    simp only [profilesSpec, List.map_map]
    exact List.map_id _
  rw [hkeys]
  exact sortedKeys_pairwise_lt _ _

/-- C6 witness: the daily-profile statement evaluated on a concrete
two-day series. -/
theorem daily_profiles_correct_witness :
    (compute_daily_profiles ⟨[⟨⟨1, 8, 0, 0⟩, 125⟩, ⟨⟨0, 9, 0, 0⟩, 70⟩], none, none⟩).2
      = profilesSpec ⟨[⟨⟨1, 8, 0, 0⟩, 125⟩, ⟨⟨0, 9, 0, 0⟩, 70⟩], none, none⟩ :=
  (daily_profiles_correct ⟨[⟨⟨1, 8, 0, 0⟩, 125⟩, ⟨⟨0, 9, 0, 0⟩, 70⟩], none, none⟩ (by decide)).1

/-- C4: the AGP computation assigns each reading the time-of-day
coordinate `hour + minute/60`, groups readings sharing the exact same
coordinate, and returns — in strictly ascending coordinate order — the
median and the 5th/25th/75th/95th percentiles of each group with
numpy's linear interpolation between order statistics (the pandas median
agrees with the 50th such percentile). -/
theorem agp_correct (f : Frame) (_hne : f.rows ≠ []) :
    (compute_agp f).2 = agpSpec f
    ∧ ((compute_agp f).2.map AGPRow.timeOfDay).Pairwise (· < ·) := by
  have heq : (compute_agp f).2 = agpSpec f := by
    simp only [compute_agp, agpSpec, groupby, List.map_map]
    apply List.map_congr_left
    intro t _
    simp only [Function.comp]
    rw [medianList_eq_percentile_50]
  refine ⟨heq, ?_⟩
  rw [heq]
  have hkeys : (agpSpec f).map AGPRow.timeOfDay = sortedKeys tod f.rows := by
    simp only [agpSpec, List.map_map]
    exact List.map_id _
  rw [hkeys]
  exact sortedKeys_pairwise_lt _ _

/-- C4 witness: the AGP statement evaluated on the spec's concrete
scenario (two readings at 08:00 on one day, one at 08:00 the next day). -/
theorem agp_correct_witness :
    (compute_agp ⟨[⟨⟨0, 8, 0, 0⟩, 70⟩, ⟨⟨0, 8, 0, 0⟩, 180⟩, ⟨⟨1, 8, 0, 0⟩, 125⟩],
        none, none⟩).2
      = agpSpec ⟨[⟨⟨0, 8, 0, 0⟩, 70⟩, ⟨⟨0, 8, 0, 0⟩, 180⟩, ⟨⟨1, 8, 0, 0⟩, 125⟩],
        none, none⟩ :=
  (agp_correct ⟨[⟨⟨0, 8, 0, 0⟩, 70⟩, ⟨⟨0, 8, 0, 0⟩, 180⟩, ⟨⟨1, 8, 0, 0⟩, 125⟩],
    none, none⟩ (by decide)).1

/-- C8: in every row of the computed AGP curve the percentile columns are
monotonic, `p5 ≤ p25 ≤ median ≤ p75 ≤ p95`: all five are linear
interpolations into the same sorted group at increasing positions. -/
theorem agp_percentiles_monotone (f : Frame) (_hne : f.rows ≠ []) :
    ∀ row ∈ (compute_agp f).2,
      row.p5 ≤ row.p25 ∧ row.p25 ≤ row.median
        ∧ row.median ≤ row.p75 ∧ row.p75 ≤ row.p95 := by
  intro row hrow
  simp only [compute_agp, groupby, List.mem_map] at hrow
  obtain ⟨t, _ht, rfl⟩ := hrow
  refine ⟨?_, ?_, ?_, ?_⟩
  · exact percentile_mono _ (by norm_num) (by norm_num) (by norm_num)
  · show percentile _ 25 ≤ medianList _
    rw [medianList_eq_percentile_50]
    exact percentile_mono _ (by norm_num) (by norm_num) (by norm_num)
  · show medianList _ ≤ percentile _ 75
    rw [medianList_eq_percentile_50]
    exact percentile_mono _ (by norm_num) (by norm_num) (by norm_num)
  · exact percentile_mono _ (by norm_num) (by norm_num) (by norm_num)

/-- C8 witness: percentile monotonicity on the concrete single row the
AGP computation produces for a one-reading series. -/
theorem agp_percentiles_monotone_witness :
    ((⟨8, 125, 125, 125, 125, 125⟩ : AGPRow).p5 ≤ (⟨8, 125, 125, 125, 125, 125⟩ : AGPRow).p25
      ∧ (⟨8, 125, 125, 125, 125, 125⟩ : AGPRow).p25 ≤ (⟨8, 125, 125, 125, 125, 125⟩ : AGPRow).median
      ∧ (⟨8, 125, 125, 125, 125, 125⟩ : AGPRow).median ≤ (⟨8, 125, 125, 125, 125, 125⟩ : AGPRow).p75
      ∧ (⟨8, 125, 125, 125, 125, 125⟩ : AGPRow).p75 ≤ (⟨8, 125, 125, 125, 125, 125⟩ : AGPRow).p95) :=
  agp_percentiles_monotone ⟨[⟨⟨0, 8, 0, 0⟩, 125⟩], none, none⟩ (by decide)
    ⟨8, 125, 125, 125, 125, 125⟩
    (by
      have hl : (compute_agp ⟨[⟨⟨0, 8, 0, 0⟩, 125⟩], none, none⟩).2
          = [⟨8, 125, 125, 125, 125, 125⟩] := by
        simp [compute_agp, groupby, sortedKeys, tod, percentile, interpSorted, medianList,
          Frame.glucose, List.insertionSort, List.orderedInsert, List.dedup]
      rw [hl]
      exact List.mem_singleton.mpr rfl)
